import Mathlib

/-!
# apache-release-verification: a shallow embedding

A Lean model of the release-verification tool (src/checks.py, src/report.py,
src/main.py, src/helpers.py, src/config.py). Python values are modelled as
plain Lean data; code that can raise returns `Except PyErr`; shell and
filesystem effects are parameters (`Env`). Machine behaviour that matters to
the claims — Python call semantics (a call missing a required positional
argument raises `TypeError`), attribute lookup on a `NamedTuple`, `list += str`
extending a list with the string's characters, `str.format` raising `KeyError`
on an unknown keyword, `max()` raising `ValueError` on an empty sequence,
truthiness of `x or y` on optional strings — is modelled explicitly.
-/

namespace ARV

/-- The Python exceptions the modelled code can raise. -/
inductive PyErr where
  | typeError (msg : String)
  | attributeError (msg : String)
  | valueError (msg : String)
  | keyError (key : String)
  | exception (msg : String)
deriving DecidableEq, Repr

/-- Python `a or b` on an optional string: `None` and `""` are falsy. -/
def orElseStr (a : Option String) (b : String) : String :=
  match a with
  | some s => if s = "" then b else s
  | none => b

/-- Python `str(x)` on an `Optional[str]`. -/
def pyStr (a : Option String) : String :=
  match a with
  | some s => s
  | none => "None"

/-- posixpath.join for two components, as the sources use it
(`os.path.join(a, b, c)` folds this left): `b` replaces everything when it
is absolute (begins with `/`), and no separator is inserted after an empty
or slash-terminated `a`. -/
def osPathJoin (a b : String) : String :=
  if b.data.head? = some '/' then b
  else if a = "" ∨ a.data.getLast? = some '/' then a ++ b
  else a ++ "/" ++ b

/-- Python `errors += s` where `errors` is a `list` and `s` a `str`: the list
is extended with the string's characters, each a one-character string. -/
def listPlusEqString (errors : List String) (s : String) : List String :=
  errors ++ s.data.map Char.toString

/-- Python `max` over a list of naturals: raises `ValueError` on an empty
sequence. -/
def pyMaxList (l : List Nat) : Except PyErr Nat :=
  match l with
  | [] => Except.error (PyErr.valueError "max() arg is an empty sequence")
  | x :: xs => Except.ok (xs.foldl Nat.max x)

/-! ## report.py -/

/-- report.py: `class ResultKind(Enum)`. -/
inductive ResultKind where
  | PASS
  | FAIL
  | WARN
  | NOTE
  | ERROR
deriving DecidableEq, Repr

/-- The enum member's `.name` attribute. -/
def ResultKind.name : ResultKind → String
  | .PASS => "PASS"
  | .FAIL => "FAIL"
  | .WARN => "WARN"
  | .NOTE => "NOTE"
  | .ERROR => "ERROR"

/-- report.py: `class Result(NamedTuple)`. Its fields are exactly `name`,
`hide_if_passing`, `message`, `kind`; there is no field `error`. -/
structure Result where
  name : String
  hide_if_passing : Bool
  message : Option String
  kind : ResultKind
deriving DecidableEq, Repr

/-- report.py: `Result.passed(name, hide_if_passing)`. -/
def Result.passed (name : String) (hide_if_passing : Bool) : Result :=
  ⟨name, hide_if_passing, none, ResultKind.PASS⟩

/-- report.py: `Result.failed(name, hide_if_passing, message, kind)` — note
the four required positional parameters. -/
def Result.failed (name : String) (hide_if_passing : Bool) (message : String)
    (kind : ResultKind) : Result :=
  ⟨name, hide_if_passing, some message, kind⟩

/-- report.py: `Result.is_passed` (`self.kind is ResultKind.PASS`). -/
def Result.is_passed (r : Result) : Bool :=
  r.kind == ResultKind.PASS

/-- report.py: `class Report(NamedTuple)`. -/
structure Report where
  results : List Result
deriving DecidableEq, Repr

/-- report.py: `Report.problem_count` — the counting loop, verbatim. -/
def Report.problem_count (report : Report) : Nat :=
  report.results.foldl
    (fun problems result => if ! result.is_passed then problems + 1 else problems) 0

/-- report.py: one `logging.info` line of `print_report`'s loop body (colour
escape codes are not modelled; they surround `result.kind.name` and change no
length used by the padding computation, which uses `len(result.kind.name)`). -/
def reportLine (max_len : Nat) (result : Result) : String :=
  let padding_left := String.mk (List.replicate ((max_len - result.kind.name.length + 1) / 2) ' ')
  let padding_right := String.mk (List.replicate ((max_len - result.kind.name.length) / 2) ' ')
  "[" ++ padding_left ++ result.kind.name ++ padding_right ++ "] " ++ result.name

/-- report.py: `print_report`. `max_len` is computed over *all* results before
the loop skips anything, so an empty result list raises `ValueError` from
`max()`. Returns the logged lines. -/
def print_report (report : Report) : Except PyErr (List String) := do
  let max_len ← pyMaxList (report.results.map (fun result => result.kind.name.length))
  Except.ok (report.results.foldl
    (fun lines result =>
      if result.is_passed && result.hide_if_passing then lines
      else
        lines ++ [reportLine max_len result]
          ++ (if ! result.is_passed then [pyStr result.message] else []))
    [])

/-- main.py, lines 205–212: after `print_report`, main returns normally
(process status 0) when `report.problem_count == 0` and calls `sys.exit(1)`
otherwise. -/
def mainExitStatus (report : Report) : Nat :=
  if report.problem_count == 0 then 0 else 1

/-! ## checks.py: `State` and its placeholder map -/

/-- checks.py: `@dataclass class State`. -/
structure State where
  project : String
  module : Option String
  version : String
  work_dir : String
  incubating : Bool
  zipname_template : String
  sourcedir_template : String
  github_reponame_template : String
  gpg_key : String
  git_hash : String
  build_and_test_command : Option String
deriving DecidableEq, Repr

/-- checks.py: `separators = {"dash": "-", "underscore": "_"}`, in dict
insertion order. -/
def separators : List (String × String) :=
  [("dash", "-"), ("underscore", "_")]

/-- checks.py: `State._generate_optional_placeholders`. The returned dict
holds, in insertion order, the separator-in-front entries and then the
separator-in-the-back entries. -/
def State.generate_optional_placeholders (key value : String) (condition : Bool) :
    List (String × String) :=
  (separators.map (fun sep =>
      (sep.1 ++ "_" ++ key, if condition then sep.2 ++ value else "")))
    ++ (separators.map (fun sep =>
      (key ++ "_" ++ sep.1, if condition then value ++ sep.2 else "")))

/-- checks.py: `State._pattern_placeholders`, as an association list in the
dict's insertion order (all 16 keys are distinct, so dict update never
overwrites). Python `self.module or ""` and `or self.project` test
truthiness; `str(self.module)` is `pyStr`. -/
def State.pattern_placeholders (s : State) : List (String × String) :=
  [ ("project", s.project),
    ("module", orElseStr s.module ""),
    ("module_or_project", orElseStr s.module s.project),
    ("version", s.version) ]
  ++ State.generate_optional_placeholders "module" (pyStr s.module) s.module.isSome
  ++ State.generate_optional_placeholders "incubating" "incubating" s.incubating
  ++ State.generate_optional_placeholders "incubator" "incubator" s.incubating

/-- The 16 placeholder keys, in insertion order (see
`pattern_placeholders_keys`). -/
def placeholderKeys : List String :=
  [ "project", "module", "module_or_project", "version",
    "dash_module", "underscore_module", "module_dash", "module_underscore",
    "dash_incubating", "underscore_incubating", "incubating_dash", "incubating_underscore",
    "dash_incubator", "underscore_incubator", "incubator_dash", "incubator_underscore" ]

/-! ### `str.format`

The templates the program resolves are literal text with simple named
replacement fields (`template.format(**placeholders)`). The scanner below
follows CPython's format-string parser for that fragment: `\x7b\x7b` and
`\x7d\x7d` are escapes, a lone `\x7d` in text and an unterminated field are
errors (`ValueError`), a field is a keyword name looked up in the map and a
missing one raises `KeyError(name)`. Conversion (`!r`) and format specs
(`:>8`) are outside the fragment: a field containing `!`, `:` or a nested
brace is not given a meaning by this model (the scanner rejects it), which
matches every template the program or its tests use. -/

/-- A parsed piece of a format string: literal text or a named field. -/
inductive FormatPart where
  | lit (s : String)
  | field (name : String)
deriving DecidableEq, Repr

/-- Scanner state: in literal text, or inside a `\x7b...\x7d` field with the
name read so far. -/
inductive ScanMode where
  | text
  | field (acc : String)
deriving DecidableEq, Repr

/-- Parse a format string (as its character list). `none` models
`ValueError` from CPython's parser, including on constructs outside the
modelled fragment. -/
def scanFormat : ScanMode → List Char → Option (List FormatPart)
  | .text, [] => some []
  | .text, '{' :: '{' :: rest => (scanFormat .text rest).map (FormatPart.lit "\x7b" :: ·)
  | .text, '}' :: '}' :: rest => (scanFormat .text rest).map (FormatPart.lit "\x7d" :: ·)
  | .text, '{' :: rest => scanFormat (.field "") rest
  | .text, '}' :: _ => none
  | .text, c :: rest => (scanFormat .text rest).map (FormatPart.lit c.toString :: ·)
  | .field _, [] => none
  | .field acc, '}' :: rest => (scanFormat .text rest).map (FormatPart.field acc :: ·)
  | .field _, '{' :: _ => none
  | .field _, ':' :: _ => none
  | .field _, '!' :: _ => none
  | .field acc, c :: rest => scanFormat (.field (acc.push c)) rest

/-- Substitute the fields left to right; the first name absent from the map
raises `KeyError(name)`. -/
def formatParts (placeholders : List (String × String)) :
    List FormatPart → Except PyErr String
  | [] => Except.ok ""
  | FormatPart.lit s :: rest => (formatParts placeholders rest).map (s ++ ·)
  | FormatPart.field name :: rest =>
      match List.lookup name placeholders with
      | some v => (formatParts placeholders rest).map (v ++ ·)
      | none => Except.error (PyErr.keyError name)

/-- Python `template.format(**placeholders)` over the modelled fragment. -/
def pyStrFormat (template : String) (placeholders : List (String × String)) :
    Except PyErr String :=
  match scanFormat ScanMode.text template.data with
  | none => Except.error (PyErr.valueError "bad format string")
  | some parts => formatParts placeholders parts

/-- checks.py: `State._format_template` — `KeyError` is caught and re-raised
as `Exception` with the message built from `e.args[0]` and the placeholder
keys; any other error propagates. -/
def State.format_template (s : State) (template : String) : Except PyErr String :=
  match pyStrFormat template s.pattern_placeholders with
  | Except.ok v => Except.ok v
  | Except.error (PyErr.keyError key) =>
      Except.error (PyErr.exception
        ("Placeholder '" ++ key ++ "' is not known. Valid placeholders: "
          ++ String.intercalate ", " (s.pattern_placeholders.map Prod.fst)))
  | Except.error e => Except.error e

/-! ### `State` path properties -/

/-- checks.py: `State.release_dir` =
`os.path.join(self.work_dir, self.module or self.project, self.version)`. -/
def State.release_dir (s : State) : String :=
  osPathJoin (osPathJoin s.work_dir (orElseStr s.module s.project)) s.version

/-- checks.py: `State.base_path`. -/
def State.base_path (s : State) : Except PyErr String :=
  (s.format_template s.zipname_template).map (fun filename =>
    osPathJoin s.release_dir filename)

/-- checks.py: `State.zip_path` = `self.base_path + ".zip"`. -/
def State.zip_path (s : State) : Except PyErr String :=
  s.base_path.map (· ++ ".zip")

/-- checks.py: `State.sha512_path` = `self.zip_path + ".sha512"`. -/
def State.sha512_path (s : State) : Except PyErr String :=
  s.zip_path.map (· ++ ".sha512")

/-- checks.py: `State.keys_path` = `os.path.join(self.work_dir, "KEYS")`. -/
def State.keys_path (s : State) : String :=
  osPathJoin s.work_dir "KEYS"

/-- checks.py: `State.asc_path` = `self.zip_path + ".asc"`. -/
def State.asc_path (s : State) : Except PyErr String :=
  s.zip_path.map (· ++ ".asc")

/-- checks.py: `State.unzipped_dir`. -/
def State.unzipped_dir (s : State) : String :=
  osPathJoin s.work_dir "unzipped"

/-- checks.py: `State.source_dir`. -/
def State.source_dir (s : State) : Except PyErr String :=
  (s.format_template s.sourcedir_template).map (fun dirname =>
    osPathJoin s.unzipped_dir dirname)

/-- checks.py: `State.git_repo_name`. -/
def State.git_repo_name (s : State) : Except PyErr String :=
  s.format_template s.github_reponame_template

/-- checks.py: `State.git_dir` =
`os.path.join(self.work_dir, "git", self.git_repo_name)`. -/
def State.git_dir (s : State) : Except PyErr String :=
  s.git_repo_name.map (fun n => osPathJoin (osPathJoin s.work_dir "git") n)

/-! ## checks.py: `Check` and `run_checks` -/

/-- checks.py: `class Check`, with the nice name already generated. Its
wrapped function returns `None` for pass, a message for failure, and may
raise. -/
structure Check where
  name : String
  hide_if_passing : Bool
  run : State → Except PyErr (Option String)

/-- `"".join(traceback.format_exception_only(ex.__class__, ex)).strip()`:
the exception's short description, `Type: message`. -/
def format_exception_only : PyErr → String
  | PyErr.typeError msg => "TypeError: " ++ msg
  | PyErr.attributeError msg => "AttributeError: " ++ msg
  | PyErr.valueError msg => "ValueError: " ++ msg
  | PyErr.keyError key => "KeyError: '" ++ key ++ "'"
  | PyErr.exception msg => "Exception: " ++ msg

/-- checks.py lines 175 and 177: `Result.failed(check.name,
check.hide_if_passing, <message>)`. report.py's `Result.failed` requires four
positional arguments (`name, hide_if_passing, message, kind`), so under
Python call semantics this call itself raises `TypeError` before any
`Result` is built. -/
def Result.failedThreeArgCall (_name : String) (_hide_if_passing : Bool)
    (_message : String) : Except PyErr Result :=
  Except.error (PyErr.typeError
    "failed() missing 1 required positional argument: 'kind'")

/-- checks.py `run_checks`, the `try:` body of one loop iteration:
run the check; `None` records a pass, a message flows into the three-argument
`Result.failed` call. -/
def runChecksTryBody (state : State) (check : Check) : Except PyErr Result :=
  match check.run state with
  | Except.ok none => Except.ok (Result.passed check.name check.hide_if_passing)
  | Except.ok (some error) =>
      Result.failedThreeArgCall check.name check.hide_if_passing error
  | Except.error ex => Except.error ex

/-- checks.py `run_checks`, one loop iteration's `try`/`except`: any
exception from the body reaches the handler, which itself makes the same
three-argument `Result.failed` call (whose `TypeError` then propagates,
uncaught). -/
def runChecksIteration (state : State) (check : Check) : Except PyErr Result :=
  match runChecksTryBody state check with
  | Except.ok result => Except.ok result
  | Except.error ex =>
      Result.failedThreeArgCall check.name check.hide_if_passing
        (format_exception_only ex)

/-- checks.py `run_checks`, the loop: after `try`/`except`, a non-passing
result reaches `print_error(str(result.error))` — but `Result` has no
attribute `error`, so that line raises `AttributeError`, uncaught. -/
def runChecksLoop (state : State) : List Check → Except PyErr (List Result)
  | [] => Except.ok []
  | check :: rest =>
      match runChecksIteration state check with
      | Except.error ex => Except.error ex
      | Except.ok result =>
          if ! result.is_passed then
            Except.error (PyErr.attributeError
              "'Result' object has no attribute 'error'")
          else
            match runChecksLoop state rest with
            | Except.ok results => Except.ok (result :: results)
            | Except.error ex => Except.error ex

/-- checks.py: `run_checks(state, checks) -> Report`. -/
def run_checks (state : State) (checks : List Check) : Except PyErr Report :=
  (runChecksLoop state checks).map Report.mk

/-! ## checks.py: the `filecmp.dircmp` consumers

`filecmp.dircmp(left, right, ignore=[])` hands the three helpers an object
with the compared paths, the names only in either tree, the common files
whose contents differ (`diff_files`), the common files that could not be
compared (`funny_files`) and the comparison objects of the common
subdirectories (`subdirs.values()`, in common-directory order). -/

/-- The `filecmp.dircmp` attributes the three `_check_dircmp_*` helpers read. -/
inductive DirCmp where
  | mk (left : String) (right : String)
      (left_only : List String) (right_only : List String)
      (diff_files : List String) (funny_files : List String)
      (subdirs : List DirCmp)

def DirCmp.left : DirCmp → String
  | .mk l _ _ _ _ _ _ => l

def DirCmp.right : DirCmp → String
  | .mk _ r _ _ _ _ _ => r

def DirCmp.left_only : DirCmp → List String
  | .mk _ _ lo _ _ _ _ => lo

def DirCmp.right_only : DirCmp → List String
  | .mk _ _ _ ro _ _ _ => ro

def DirCmp.diff_files : DirCmp → List String
  | .mk _ _ _ _ df _ _ => df

def DirCmp.funny_files : DirCmp → List String
  | .mk _ _ _ _ _ ff _ => ff

def DirCmp.subdirs : DirCmp → List DirCmp
  | .mk _ _ _ _ _ _ sd => sd

/-- checks.py: `allowed_left_only` of `_check_dircmp_only_either_allowed`. -/
def allowed_left_only : List String :=
  [".git", ".gitignore", ".gitattributes", ".travis.yml", ".mvn", "mvnw",
   "mvnw.cmd", "Jenkinsfile", "CONTRIBUTING", "CONTRIBUTING.md"]

/-- checks.py: `allowed_right_only` of `_check_dircmp_only_either_allowed`. -/
def allowed_right_only : List String :=
  ["DEPENDENCIES"]

mutual

/-- checks.py: `_check_dircmp_only_either_allowed`, with the two allow-lists
as parameters (the source fixes them to `allowed_left_only` and
`allowed_right_only`; see `_check_dircmp_only_either_allowed`). Both loops
use `errors.append`, so each disallowed name contributes one message. -/
def check_dircmp_only_either_allowed_gen (aL aR : List String) :
    DirCmp → List String
  | .mk left right left_only right_only _diff _funny subdirs =>
      (left_only.filter (fun filename => ! aL.contains filename)).map
        (fun filename => osPathJoin left filename ++ " is only in the git checkout")
      ++ (right_only.filter (fun filename => ! aR.contains filename)).map
        (fun filename => osPathJoin right filename ++ " is only in the source archive")
      ++ check_dircmp_only_either_allowed_genList aL aR subdirs

/-- The recursion of `_check_dircmp_only_either_allowed` over
`diff.subdirs.values()`. -/
def check_dircmp_only_either_allowed_genList (aL aR : List String) :
    List DirCmp → List String
  | [] => []
  | d :: ds =>
      check_dircmp_only_either_allowed_gen aL aR d
        ++ check_dircmp_only_either_allowed_genList aL aR ds

end

/-- checks.py: `_check_dircmp_only_either_allowed` as the source fixes it. -/
def _check_dircmp_only_either_allowed (diff : DirCmp) : List String :=
  check_dircmp_only_either_allowed_gen allowed_left_only allowed_right_only diff

mutual

/-- checks.py: `_check_dircmp_no_diff_files`. Note `errors +=` with a `str`
on the right: the list is extended with the message's characters, not with
the message (`listPlusEqString`). -/
def _check_dircmp_no_diff_files : DirCmp → List String
  | .mk _ _ _ _ diff_files _ subdirs =>
      (if diff_files.isEmpty then []
       else listPlusEqString []
         ("The contents of the following files differ: "
           ++ String.intercalate " " diff_files))
      ++ check_dircmp_no_diff_filesList subdirs

/-- The recursion of `_check_dircmp_no_diff_files` over
`diff.subdirs.values()`. -/
def check_dircmp_no_diff_filesList : List DirCmp → List String
  | [] => []
  | d :: ds => _check_dircmp_no_diff_files d ++ check_dircmp_no_diff_filesList ds

end

/-- checks.py: `_check_dircmp_no_funny_files`, verbatim: when
`diff.funny_files` is non-empty the message joins `diff.diff_files` (not
`funny_files`), `errors +=` splits it into characters, and the recursion
calls `_check_dircmp_no_diff_files` on the subdirectories (not itself). -/
def _check_dircmp_no_funny_files : DirCmp → List String
  | .mk _ _ _ _ diff_files funny_files subdirs =>
      (if funny_files.isEmpty then []
       else listPlusEqString []
         ("Failed to compare contents of the following files: "
           ++ String.intercalate " " diff_files))
      ++ check_dircmp_no_diff_filesList subdirs

/-! ## A model of `filecmp.dircmp` over directory trees

A directory tree is a regular file with byte content, or a directory whose
listing is a finite list of named entries (a real directory lists each name
once: `treeNodup`). `dircmpFS` follows `filecmp.dircmp(left, right,
ignore=[])` on such trees: names only in one listing, common regular files
whose contents differ, and the comparison objects of the names that are
directories on both sides. With no I/O errors in the model, `funny_files`
is empty. (`dircmp` sorts each listing; the model keeps listing order, which
permutes the reported lists but changes no membership.) -/

inductive FSTree where
  | file (content : String)
  | dir (entries : List (String × FSTree))

/-- The names a directory listing holds. -/
def entryNames (entries : List (String × FSTree)) : List String :=
  entries.map Prod.fst

/-- `sizeOf` bound used for `dircmpFS`'s termination. -/
theorem sizeOf_lookupEntry {r : List (String × FSTree)} {n : String} {t : FSTree}
    (h : List.lookup n r = some t) : sizeOf t < sizeOf r := by
  induction r with
  | nil => simp [List.lookup] at h
  | cons e rest ih =>
    obtain ⟨k, v⟩ := e
    rw [List.lookup] at h
    by_cases hk : n == k
    · simp only [hk] at h
      cases h
      simp only [List.cons.sizeOf_spec, Prod.mk.sizeOf_spec]
      omega
    · simp only [hk] at h
      have := ih h
      simp only [List.cons.sizeOf_spec, Prod.mk.sizeOf_spec]
      omega

/-- `sizeOf` bound for a directory's entry list. -/
theorem sizeOf_dir_entries {t : FSTree} {es : List (String × FSTree)}
    (h : t = FSTree.dir es) : sizeOf es < sizeOf t := by
  subst h
  simp only [FSTree.dir.sizeOf_spec]
  omega

/-- `sizeOf` bound on a lookup's result as an option. -/
theorem sizeOf_lookup_le (n : String) (r : List (String × FSTree)) :
    sizeOf (List.lookup n r) ≤ sizeOf r := by
  cases h : List.lookup n r with
  | none =>
    have : 1 ≤ sizeOf r := by
      cases r <;> simp only [List.nil.sizeOf_spec, List.cons.sizeOf_spec] <;> omega
    simpa using this
  | some t =>
    have := sizeOf_lookupEntry h
    simp only [Option.some.sizeOf_spec]
    omega

mutual

/-- `filecmp.dircmp(leftPath, rightPath)` on the listings `l` and `r`. -/
def dircmpFS (leftPath rightPath : String) (l r : List (String × FSTree)) :
    DirCmp :=
  DirCmp.mk leftPath rightPath
    ((entryNames l).filter (fun n => ! (entryNames r).contains n))
    ((entryNames r).filter (fun n => ! (entryNames l).contains n))
    ((l.filter (fun e =>
        match e.2, List.lookup e.1 r with
        | FSTree.file c1, some (FSTree.file c2) => ! (c1 == c2)
        | _, _ => false)).map Prod.fst)
    []
    (dircmpFSSubdirs leftPath rightPath l r)
termination_by (sizeOf l + sizeOf r, 1)
decreasing_by
  apply Prod.Lex.right
  omega

/-- The comparison objects of the common subdirectories, in left-listing
order: a left entry that is a directory contributes the comparison with its
right counterpart when that is a directory too. -/
def dircmpFSSubdirs (leftPath rightPath : String)
    (l r : List (String × FSTree)) : List DirCmp :=
  match l with
  | [] => []
  | (_, FSTree.file _) :: rest => dircmpFSSubdirs leftPath rightPath rest r
  | (n, FSTree.dir es1) :: rest =>
      dircmpFSPair (osPathJoin leftPath n) (osPathJoin rightPath n) es1
          (List.lookup n r)
        ++ dircmpFSSubdirs leftPath rightPath rest r
termination_by (sizeOf l + sizeOf r, 0)
decreasing_by
  · apply Prod.Lex.left
    simp only [List.cons.sizeOf_spec, Prod.mk.sizeOf_spec, FSTree.file.sizeOf_spec]
    omega
  · apply Prod.Lex.left
    have h1 := sizeOf_lookup_le n r
    simp only [List.cons.sizeOf_spec, Prod.mk.sizeOf_spec, FSTree.dir.sizeOf_spec]
    omega
  · apply Prod.Lex.left
    simp only [List.cons.sizeOf_spec, Prod.mk.sizeOf_spec, FSTree.dir.sizeOf_spec]
    omega

/-- One common name's contribution: compare the two listings when the right
counterpart is also a directory, nothing otherwise. -/
def dircmpFSPair (leftPath rightPath : String) (es1 : List (String × FSTree)) :
    Option FSTree → List DirCmp
  | some (FSTree.dir es2) => [dircmpFS leftPath rightPath es1 es2]
  | some (FSTree.file _) => []
  | none => []
termination_by t => (sizeOf es1 + sizeOf t, 0)
decreasing_by
  apply Prod.Lex.left
  simp only [Option.some.sizeOf_spec, FSTree.dir.sizeOf_spec]
  omega

end

mutual

/-- A real directory tree: every listing holds each name once. -/
def treeNodup : FSTree → Bool
  | .file _ => true
  | .dir es => decide (entryNames es).Nodup && entriesNodup es

/-- `treeNodup` of every subtree of a listing. -/
def entriesNodup : List (String × FSTree) → Bool
  | [] => true
  | e :: rest => treeNodup e.2 && entriesNodup rest

end

/-- Add a file named `f` with content `c` to the directory reached from the
root by the names in `path` (each an existing subdirectory); `none` when the
path is broken or the name is already taken. The new entry heads the
listing. -/
def insertFileAt : List String → String → String → List (String × FSTree) →
    Option (List (String × FSTree))
  | [], f, c, es =>
      if (entryNames es).contains f then none
      else some ((f, FSTree.file c) :: es)
  | p :: ps, f, c, es =>
      match List.lookup p es with
      | some (FSTree.dir sub) =>
          (insertFileAt ps f c sub).map (fun sub2 =>
            replaceEntry es p (FSTree.dir sub2))
      | _ => none
where
  /-- Replace the (first) entry named `n`. -/
  replaceEntry : List (String × FSTree) → String → FSTree →
      List (String × FSTree)
  | [], _, _ => []
  | (k, v) :: rest, n, t =>
      if k = n then (k, t) :: rest else (k, v) :: replaceEntry rest n t

/-! ## checks.py: `_check_sh` and the build/test heuristics -/

/-- The outside world the checks touch: `os.path.exists`, and the exit
status `helpers.sh(cmd, workdir)` returns for a shell command. -/
structure Env where
  pathExists : String → Bool
  shStatus : String → Option String → Int

/-- checks.py: `_check_sh(cmds, workdir)` — run the commands in order,
stopping at the first non-zero exit status with its message (a lone string
argument is the singleton list). -/
def _check_sh (env : Env) (cmds : List String) (workdir : Option String) :
    Option String :=
  match cmds with
  | [] => none
  | cmd :: rest =>
      let status := env.shStatus cmd workdir
      if status ≠ 0 then
        some ("Executing `" ++ cmd ++ "`"
          ++ (match workdir with
              | some w => " in " ++ w
              | none => "")
          ++ " exited with non-zero status code " ++ toString status ++ ". "
          ++ "See above for output. (Note that the command was run under "
          ++ "`set -euo pipefail`)")
      else _check_sh env rest workdir

/-- checks.py: a `BuildAndTest` variant — its name, its applicability
heuristic and its runner, both given the resolved `state.source_dir`. -/
structure BuildAndTest where
  name : String
  should_run : Env → String → Bool
  run : Env → String → Option String

/-- checks.py: `class BuildAndTestMaven`. -/
def BuildAndTestMaven : BuildAndTest :=
  ⟨"maven",
   fun env source_dir => env.pathExists (osPathJoin source_dir "pom.xml"),
   fun env source_dir =>
     _check_sh env
       ["mvn --quiet -N io.takari:maven:wrapper -Dmaven=3.6.0",
        "./mvnw --quiet package"]
       (some source_dir)⟩

/-- checks.py: `class BuildAndTestNpm`. -/
def BuildAndTestNpm : BuildAndTest :=
  ⟨"npm",
   fun env source_dir => env.pathExists (osPathJoin source_dir "package.json"),
   fun env source_dir => _check_sh env ["npm test"] (some source_dir)⟩

/-- checks.py: `strategies = [BuildAndTestMaven(), BuildAndTestNpm()]`. -/
def buildStrategies : List BuildAndTest :=
  [BuildAndTestMaven, BuildAndTestNpm]

/-- The strategy loop of `check_build_and_test`: accumulates the names
printed by `Executing build-and-test for {name}` (the executed strategies)
and the `errors` list — note `errors += f"{name}: {err}"` extends the list
with the formatted message's characters (`listPlusEqString`). -/
def buildAndTestLoop (env : Env) (source_dir : String) :
    List BuildAndTest → List String × List String
  | [] => ([], [])
  | strategy :: rest =>
      if strategy.should_run env source_dir then
        let errs :=
          match strategy.run env source_dir with
          | some err => listPlusEqString [] (strategy.name ++ ": " ++ err)
          | none => []
        let tail := buildAndTestLoop env source_dir rest
        (strategy.name :: tail.1, errs ++ tail.2)
      else buildAndTestLoop env source_dir rest

/-- The four-line diagnostic `check_build_and_test` uses when no strategy
applies and no explicit command was given. -/
def heuristicsFailedLines : List String :=
  ["Heuristics failed to figure out the way to build and test this release.",
   "Please specify the build-and-test command as:",
   "--build-and-test-command 'shell script'",
   "(Possibly --build-and-test-command true)"]

/-- checks.py: `check_build_and_test`. Returns the executed strategy names
together with the check's `Optional[str]` outcome; reading
`state.source_dir` resolves a template, so its error propagates. -/
def check_build_and_test (env : Env) (state : State) :
    Except PyErr (List String × Option String) :=
  match state.build_and_test_command with
  | some cmd =>
      match state.source_dir with
      | Except.error e => Except.error e
      | Except.ok source_dir =>
          Except.ok ([], _check_sh env [cmd] (some source_dir))
  | none =>
      match state.source_dir with
      | Except.error e => Except.error e
      | Except.ok source_dir =>
          let loop := buildAndTestLoop env source_dir buildStrategies
          let executed_at_least_one := ! loop.1.isEmpty
          let errors :=
            if ! executed_at_least_one then heuristicsFailedLines else loop.2
          Except.ok (loop.1,
            if errors.isEmpty then none else some (String.intercalate "\n" errors))

/-! ## Theorems -/

theorem is_passed_iff_kind_pass (r : Result) :
    (! r.is_passed) = decide (r.kind ≠ ResultKind.PASS) := by
  cases r with
  | mk name hide message kind => cases kind <;> simp [Result.is_passed]

theorem problem_count_foldl (results : List Result) (acc : Nat) :
    results.foldl
        (fun problems result => if ! result.is_passed then problems + 1 else problems)
        acc
      = acc + (results.filter (fun r => ! r.is_passed)).length := by
  induction results generalizing acc with
  | nil => simp
  | cons r rest ih =>
    rw [List.foldl_cons, ih, List.filter_cons]
    by_cases h : r.is_passed = true
    · simp [h]
    · simp only [Bool.not_eq_true] at h
      simp [h]
      omega

/-- C4: for every Report, `problem_count` equals the number of results whose
kind is not PASS, and main's process exit status is 0 exactly when
`problem_count` is zero (non-zero whenever any check failed or errored). -/
theorem c4_problem_count_counts_non_pass_and_gates_exit :
    ∀ (results : List Result),
      (Report.mk results).problem_count
          = (results.filter (fun r => decide (r.kind ≠ ResultKind.PASS))).length
        ∧ (mainExitStatus (Report.mk results) = 0
            ↔ (Report.mk results).problem_count = 0) := by
  intro results
  constructor
  · have h1 : (Report.mk results).problem_count
        = (results.filter (fun r => ! r.is_passed)).length := by
      unfold Report.problem_count
      simpa using problem_count_foldl results 0
    rw [h1]
    congr 1
    apply List.filter_congr
    intro r _
    exact is_passed_iff_kind_pass r
  · unfold mainExitStatus
    by_cases h : (Report.mk results).problem_count = 0
    · simp [h]
    · simp [h]

/-- C10: printing a report with an empty result list raises (`max()` over
the severity-name lengths is computed before any result is skipped), and
`print_report` succeeds on every report with at least one result. -/
theorem c10_print_report_total_iff_nonempty :
    ∀ (report : Report),
      (report.results = [] →
        print_report report
          = Except.error (PyErr.valueError "max() arg is an empty sequence"))
        ∧ (report.results ≠ [] → ∃ lines, print_report report = Except.ok lines) := by
  intro report
  obtain ⟨results⟩ := report
  constructor
  · intro h
    simp only at h
    subst h
    rfl
  · intro h
    simp only at h
    obtain ⟨r, rest, hres⟩ := List.exists_cons_of_ne_nil h
    subst hres
    exact ⟨_, rfl⟩

/-- Witness for C10 at concrete reports. -/
theorem c10_witness :
    print_report (Report.mk [])
        = Except.error (PyErr.valueError "max() arg is an empty sequence")
      ∧ ∃ lines,
        print_report (Report.mk [Result.passed "zip file exists" false])
          = Except.ok lines :=
  ⟨(c10_print_report_total_iff_nonempty (Report.mk [])).1 rfl,
   (c10_print_report_total_iff_nonempty
      (Report.mk [Result.passed "zip file exists" false])).2 (by simp)⟩

/-- A demonstration `State` (field values are irrelevant to `run_checks`). -/
def demoState : State :=
  ⟨"zipkin", none, "2.12.9", "/tmp/work", true,
   "apache-zipkin-incubating-2.12.9-source-release", "zipkin-2.12.9",
   "incubator-zipkin.git", "0123ABCD", "abc123", none⟩

/-- A check that fails with a non-empty error string. -/
def demoFailingCheck : Check :=
  ⟨"Source archive has expected name", false, fun _ => Except.ok (some "boom")⟩

/-- A check that raises an unexpected exception. -/
def demoRaisingCheck : Check :=
  ⟨"SHA512 checksum is correct", true,
   fun _ => Except.error (PyErr.exception "gpg broke")⟩

/-- A check that passes. -/
def demoPassingCheck : Check :=
  ⟨"KEYS file exists", true, fun _ => Except.ok none⟩

/-- C1 (code bug): a passing run is recorded, but the moment any check
returns an error string — or raises — `run_checks` itself raises `TypeError`
(`Result.failed` is called with three arguments where report.py requires
four), so no FAIL or ERROR result is ever recorded and execution does not
continue to the next check. -/
theorem c1_run_checks_raises_on_any_non_pass :
    run_checks demoState [demoPassingCheck]
        = Except.ok (Report.mk [Result.passed "KEYS file exists" true])
      ∧ run_checks demoState [demoFailingCheck, demoPassingCheck]
        = Except.error (PyErr.typeError
            "failed() missing 1 required positional argument: 'kind'")
      ∧ run_checks demoState [demoRaisingCheck, demoPassingCheck]
        = Except.error (PyErr.typeError
            "failed() missing 1 required positional argument: 'kind'") :=
  ⟨rfl, rfl, rfl⟩

/-- A comparison with one differing common file and nothing else. -/
def c2Cmp : DirCmp :=
  DirCmp.mk "/tmp/work/git/zipkin" "/tmp/work/unzipped/zipkin"
    [] [] ["README.md"] [] []

/-- C2 (code bug): with one differing file, `_check_dircmp_no_diff_files`
does not return the one batched message — `errors += <str>` extends the
list with the message's characters, one single-character entry each. -/
theorem c2_diff_message_split_into_characters :
    _check_dircmp_no_diff_files c2Cmp
        = ("The contents of the following files differ: README.md").data.map
            Char.toString
      ∧ _check_dircmp_no_diff_files c2Cmp
        ≠ ["The contents of the following files differ: README.md"] := by
  constructor
  · rfl
  · decide

/-- A subdirectory comparison whose only discrepancy is an uncomparable
file. -/
def c8Sub : DirCmp :=
  DirCmp.mk "/tmp/work/git/zipkin/sub" "/tmp/work/unzipped/zipkin/sub"
    [] [] [] ["inner.bin"] []

/-- A comparison with one differing file, one uncomparable file, and a
subdirectory holding another uncomparable file. -/
def c8Cmp : DirCmp :=
  DirCmp.mk "/tmp/work/git/zipkin" "/tmp/work/unzipped/zipkin"
    [] [] ["changed.txt"] ["weird.bin"] [c8Sub]

/-- C8 (code bug): the "could not compare" report of
`_check_dircmp_no_funny_files` names the *differing* files
(`diff.diff_files`), not the uncomparable ones, splits the message into
characters, and recurses with `_check_dircmp_no_diff_files`, so `weird.bin`
and the subdirectory's `inner.bin` appear nowhere in its output. -/
theorem c8_funny_files_report_is_wrong :
    _check_dircmp_no_funny_files c8Cmp
      = ("Failed to compare contents of the following files: changed.txt").data.map
          Char.toString := by
  rfl

theorem orElseStr_empty (a : Option String) : orElseStr a "" = a.getD "" := by
  cases a with
  | none => rfl
  | some s => by_cases h : s = "" <;> simp [orElseStr, h]

/-- The value the claim assigns to `module_or_project`: the module when one
is present, else the project. -/
def claimedModuleOrProject (s : State) : String :=
  match s.module with
  | some m => m
  | none => s.project

/-- A state whose module is present but the empty string. -/
def c9State : State :=
  ⟨"p", some "", "1", "w", false, "z", "s", "r", "k", "h", none⟩

/-- C9 counterexample: with a present-but-empty module the map's
`module_or_project` is the project (`self.module or self.project` tests
truthiness), not the module the claim prescribes. -/
theorem c9_counterexample_empty_module :
    List.lookup "module_or_project" c9State.pattern_placeholders = some "p"
      ∧ claimedModuleOrProject c9State = ""
      ∧ List.lookup "module_or_project" c9State.pattern_placeholders
          ≠ some (claimedModuleOrProject c9State) :=
  ⟨rfl, rfl, by decide⟩

/-- C9 (amended): every optional concept contributes its four decorated
variants, empty when the condition is false and `value` with the named
separator on the named side when true; the map always holds `project`,
`module` (empty string when absent), `version`, and `module_or_project` —
the module when it is present *and non-empty* (Python truthiness), else the
project. -/
theorem c9_placeholder_map_amended :
    (∀ (key value : String) (cond : Bool),
        State.generate_optional_placeholders key value cond
          = [("dash_" ++ key, if cond then "-" ++ value else ""),
             ("underscore_" ++ key, if cond then "_" ++ value else ""),
             (key ++ "_dash", if cond then value ++ "-" else ""),
             (key ++ "_underscore", if cond then value ++ "_" else "")])
      ∧ (∀ (s : State),
          List.lookup "project" s.pattern_placeholders = some s.project
            ∧ List.lookup "module" s.pattern_placeholders = some (s.module.getD "")
            ∧ List.lookup "module_or_project" s.pattern_placeholders
                = some (orElseStr s.module s.project)
            ∧ List.lookup "version" s.pattern_placeholders = some s.version
            ∧ List.lookup "dash_module" s.pattern_placeholders
                = some (if s.module.isSome then "-" ++ pyStr s.module else "")
            ∧ List.lookup "underscore_module" s.pattern_placeholders
                = some (if s.module.isSome then "_" ++ pyStr s.module else "")
            ∧ List.lookup "module_dash" s.pattern_placeholders
                = some (if s.module.isSome then pyStr s.module ++ "-" else "")
            ∧ List.lookup "module_underscore" s.pattern_placeholders
                = some (if s.module.isSome then pyStr s.module ++ "_" else "")
            ∧ List.lookup "dash_incubating" s.pattern_placeholders
                = some (if s.incubating then "-incubating" else "")
            ∧ List.lookup "incubating_underscore" s.pattern_placeholders
                = some (if s.incubating then "incubating_" else "")
            ∧ List.lookup "incubator_dash" s.pattern_placeholders
                = some (if s.incubating then "incubator-" else "")
            ∧ List.lookup "underscore_incubator" s.pattern_placeholders
                = some (if s.incubating then "_incubator" else "")) := by
  constructor
  · intro key value cond
    unfold State.generate_optional_placeholders separators
    simp only [List.map, List.cons_append, List.nil_append, String.append_assoc]
    rfl
  · intro s
    refine ⟨rfl, ?_, rfl, rfl, rfl, rfl, rfl, rfl, rfl, rfl, rfl, rfl⟩
    rw [← orElseStr_empty]
    rfl

/-- The layout the claim states: working directory, then project, then
module-or-blank, then version. -/
def claimedReleaseDir (s : State) : String :=
  osPathJoin (osPathJoin (osPathJoin s.work_dir s.project) (s.module.getD "")) s.version

/-- A state with a module set and single-letter components. -/
def c7State : State :=
  ⟨"p", some "m", "1", "w", false, "z", "s", "r", "k", "h", none⟩

/-- C7 counterexample: with a module set, `release_dir` holds the module
*instead of* the project — the claimed `{project}/{module-or-blank}/{version}`
layout does not match the code's `{module-or-project}/{version}`. -/
theorem c7_counterexample_project_component_missing :
    c7State.release_dir = "w/m/1"
      ∧ claimedReleaseDir c7State = "w/p/m/1"
      ∧ c7State.release_dir ≠ claimedReleaseDir c7State :=
  ⟨rfl, rfl, by decide⟩

/-- C7 (amended): the artifact paths follow
`{module-or-project}/{version}/<archive-name>.zip` under the working
directory (one leading component: the module when present and non-empty,
else the project), with the `.sha512` and `.asc` names obtained by
appending those suffixes to the zip path, `KEYS` directly under the working
directory, the extracted source under `unzipped/<resolved-source-dir>`, and
the clone under `git/<resolved-repo-name>`. -/
theorem c7_amended_path_layout :
    ∀ (s : State),
      s.release_dir
          = osPathJoin (osPathJoin s.work_dir (orElseStr s.module s.project)) s.version
        ∧ (∀ filename, s.format_template s.zipname_template = Except.ok filename →
            s.zip_path = Except.ok (osPathJoin s.release_dir filename ++ ".zip")
              ∧ s.sha512_path
                = Except.ok (osPathJoin s.release_dir filename ++ ".zip" ++ ".sha512")
              ∧ s.asc_path
                = Except.ok (osPathJoin s.release_dir filename ++ ".zip" ++ ".asc"))
        ∧ s.keys_path = osPathJoin s.work_dir "KEYS"
        ∧ (∀ dirname, s.format_template s.sourcedir_template = Except.ok dirname →
            s.source_dir
              = Except.ok (osPathJoin (osPathJoin s.work_dir "unzipped") dirname))
        ∧ (∀ reponame,
            s.format_template s.github_reponame_template = Except.ok reponame →
            s.git_dir = Except.ok (osPathJoin (osPathJoin s.work_dir "git") reponame)) := by
  intro s
  refine ⟨rfl, ?_, rfl, ?_, ?_⟩
  · intro filename h
    simp [State.zip_path, State.sha512_path, State.asc_path, State.base_path, h,
      Except.map]
  · intro dirname h
    simp [State.source_dir, State.unzipped_dir, h, Except.map]
  · intro reponame h
    simp [State.git_dir, State.git_repo_name, h, Except.map]

/-- Witness for C7's amended layout at a concrete state. -/
theorem c7_amended_witness :
    c7State.release_dir = "w/m/1"
      ∧ c7State.zip_path = Except.ok "w/m/1/z.zip"
      ∧ c7State.sha512_path = Except.ok "w/m/1/z.zip.sha512"
      ∧ c7State.asc_path = Except.ok "w/m/1/z.zip.asc"
      ∧ c7State.keys_path = "w/KEYS"
      ∧ c7State.source_dir = Except.ok "w/unzipped/s"
      ∧ c7State.git_dir = Except.ok "w/git/r" := by
  obtain ⟨h1, h2, h3, h4, h5⟩ := c7_amended_path_layout c7State
  obtain ⟨hz, hs, ha⟩ := h2 "z" rfl
  exact ⟨h1, by rw [hz]; rfl, by rw [hs]; rfl, by rw [ha]; rfl, h3,
    by rw [h4 "s" rfl]; rfl, by rw [h5 "r" rfl]; rfl⟩

/-! ### C3: template resolution -/

/-- The placeholder names a parsed template references, in order. -/
def partFields : List FormatPart → List String
  | [] => []
  | FormatPart.lit _ :: rest => partFields rest
  | FormatPart.field n :: rest => n :: partFields rest

/-- The first referenced placeholder name absent from `keys`. -/
def firstMissing (keys : List String) : List FormatPart → Option String
  | [] => none
  | FormatPart.lit _ :: rest => firstMissing keys rest
  | FormatPart.field n :: rest =>
      if keys.contains n then firstMissing keys rest else some n

/-- The keys of the placeholder map do not depend on the state. -/
theorem pattern_placeholders_keys (s : State) :
    s.pattern_placeholders.map Prod.fst = placeholderKeys := by
  rfl

theorem lookup_isSome_of_mem_keys {l : List (String × String)} {n : String}
    (h : n ∈ l.map Prod.fst) : ∃ v, List.lookup n l = some v := by
  induction l with
  | nil => simp at h
  | cons e rest ih =>
    obtain ⟨k, v⟩ := e
    simp only [List.map_cons, List.mem_cons] at h
    rw [List.lookup]
    by_cases hk : n == k
    · exact ⟨v, by simp [hk]⟩
    · simp only [hk]
      apply ih
      rcases h with h | h
      · exact absurd (by simp [h]) hk
      · exact h

theorem lookup_eq_none_of_not_mem_keys {l : List (String × String)} {n : String}
    (h : n ∉ l.map Prod.fst) : List.lookup n l = none := by
  induction l with
  | nil => rfl
  | cons e rest ih =>
    obtain ⟨k, v⟩ := e
    simp only [List.map_cons, List.mem_cons, not_or] at h
    rw [List.lookup]
    have hk : (n == k) = false := by
      simp only [beq_eq_false_iff_ne, ne_eq]
      exact h.1
    simp only [hk]
    exact ih h.2

theorem formatParts_ok_of_all_known {ph : List (String × String)}
    {parts : List FormatPart}
    (h : ∀ n ∈ partFields parts, n ∈ ph.map Prod.fst) :
    ∃ out, formatParts ph parts = Except.ok out := by
  induction parts with
  | nil => exact ⟨"", rfl⟩
  | cons p rest ih =>
    cases p with
    | lit s =>
      obtain ⟨out, hout⟩ := ih (by
        intro n hn
        exact h n (by simpa [partFields] using hn))
      exact ⟨s ++ out, by simp [formatParts, hout, Except.map]⟩
    | field m =>
      have hm : m ∈ ph.map Prod.fst := h m (by simp [partFields])
      obtain ⟨v, hv⟩ := lookup_isSome_of_mem_keys hm
      obtain ⟨out, hout⟩ := ih (by
        intro n hn
        exact h n (by simp [partFields, hn]))
      exact ⟨v ++ out, by simp [formatParts, hv, hout, Except.map]⟩

theorem formatParts_keyError_of_firstMissing {ph : List (String × String)}
    {parts : List FormatPart} {n : String}
    (h : firstMissing (ph.map Prod.fst) parts = some n) :
    formatParts ph parts = Except.error (PyErr.keyError n) := by
  induction parts with
  | nil => simp [firstMissing] at h
  | cons p rest ih =>
    cases p with
    | lit s =>
      rw [firstMissing] at h
      simp [formatParts, ih h, Except.map]
    | field m =>
      rw [firstMissing] at h
      by_cases hm : (ph.map Prod.fst).contains m
      · simp only [hm, if_true] at h
        obtain ⟨v, hv⟩ := lookup_isSome_of_mem_keys (by simpa using hm)
        simp [formatParts, hv, ih h, Except.map]
      · simp only [Bool.not_eq_true] at hm
        rw [hm] at h
        simp only [Bool.false_eq_true, if_false, Option.some.injEq] at h
        subst h
        have hnone : List.lookup m ph = none :=
          lookup_eq_none_of_not_mem_keys (by simpa using hm)
        simp [formatParts, hnone]

/-- C3: for every state, a template whose parse references only known
placeholders always resolves, and a template referencing an unknown
placeholder always fails with an error that names the first offending
placeholder and lists every valid placeholder name. -/
theorem c3_template_resolution :
    ∀ (s : State) (template : String) (parts : List FormatPart),
      scanFormat ScanMode.text template.data = some parts →
      ((∀ n ∈ partFields parts, n ∈ placeholderKeys) →
          ∃ v, s.format_template template = Except.ok v)
        ∧ (∀ n, firstMissing placeholderKeys parts = some n →
            s.format_template template
              = Except.error (PyErr.exception
                  ("Placeholder '" ++ n ++ "' is not known. Valid placeholders: "
                    ++ String.intercalate ", " placeholderKeys))) := by
  intro s template parts hparse
  have hkeys := pattern_placeholders_keys s
  have hps : pyStrFormat template s.pattern_placeholders
      = formatParts s.pattern_placeholders parts := by
    unfold pyStrFormat
    rw [hparse]
  constructor
  · intro hknown
    obtain ⟨out, hout⟩ := @formatParts_ok_of_all_known
      s.pattern_placeholders parts (by rw [hkeys]; exact hknown)
    refine ⟨out, ?_⟩
    unfold State.format_template
    rw [hps, hout]
  · intro n hmiss
    have herr := @formatParts_keyError_of_firstMissing
      s.pattern_placeholders parts n (by rw [hkeys]; exact hmiss)
    unfold State.format_template
    rw [hps, herr, hkeys]

/-- A state for the template-resolution witness. -/
def c3State : State :=
  ⟨"zipkin", some "brave", "2.12.9", "/tmp/w", true, "z", "s", "r", "k", "h", none⟩

/-- Witness for C3: a template of known placeholders resolves; one with an
unknown placeholder fails naming it and listing the valid keys. -/
theorem c3_witness :
    (∃ v, c3State.format_template "\x7bproject\x7d-\x7bversion\x7d" = Except.ok v)
      ∧ c3State.format_template "\x7bnonexistent\x7d"
        = Except.error (PyErr.exception
            ("Placeholder 'nonexistent' is not known. Valid placeholders: "
              ++ String.intercalate ", " placeholderKeys)) :=
  ⟨(c3_template_resolution c3State "\x7bproject\x7d-\x7bversion\x7d"
      [FormatPart.field "project", FormatPart.lit "-", FormatPart.field "version"]
      rfl).1 (by decide),
   (c3_template_resolution c3State "\x7bnonexistent\x7d"
      [FormatPart.field "nonexistent"] rfl).2 "nonexistent" rfl⟩

/-! ### C6: the tree comparator on identical trees and on one extra file -/

theorem filter_not_contains_of_subset {xs ys : List String}
    (h : ∀ a ∈ xs, a ∈ ys) :
    xs.filter (fun n => ! ys.contains n) = [] := by
  rw [List.filter_eq_nil_iff]
  intro a ha
  simp [h a ha]

theorem filter_not_contains_self (xs : List String) :
    xs.filter (fun n => ! xs.contains n) = [] :=
  filter_not_contains_of_subset (fun _ ha => ha)

theorem mem_keys_of_lookup {es : List (String × FSTree)} {n : String} {t : FSTree}
    (h : List.lookup n es = some t) : n ∈ entryNames es := by
  induction es with
  | nil => simp [List.lookup] at h
  | cons e rest ih =>
    obtain ⟨k, v⟩ := e
    rw [List.lookup] at h
    by_cases hk : n == k
    · have : n = k := by simpa using hk
      simp [entryNames, this]
    · rw [Bool.not_eq_true] at hk
      rw [hk] at h
      have := ih h
      simp only [entryNames, List.map_cons, List.mem_cons]
      right
      simpa [entryNames] using this

theorem lookup_mem {es : List (String × FSTree)} {n : String} {t : FSTree}
    (h : List.lookup n es = some t) : (n, t) ∈ es := by
  induction es with
  | nil => simp [List.lookup] at h
  | cons e rest ih =>
    obtain ⟨k, v⟩ := e
    rw [List.lookup] at h
    by_cases hk : n == k
    · have hnk : n = k := by simpa using hk
      rw [hk] at h
      simp only [Option.some.injEq] at h
      subst hnk
      subst h
      exact List.mem_cons_self _ _
    · rw [Bool.not_eq_true] at hk
      rw [hk] at h
      exact List.mem_cons_of_mem _ (ih h)

theorem lookup_of_mem_of_nodupKeys {es : List (String × FSTree)} {n : String}
    {t : FSTree} (hnd : (entryNames es).Nodup) (hmem : (n, t) ∈ es) :
    List.lookup n es = some t := by
  induction es with
  | nil => simp at hmem
  | cons e rest ih =>
    obtain ⟨k, v⟩ := e
    have hnames : entryNames ((k, v) :: rest) = k :: entryNames rest := rfl
    rw [hnames, List.nodup_cons] at hnd
    rcases List.mem_cons.mp hmem with h1 | h1
    · obtain ⟨hn, ht⟩ := Prod.mk.injEq .. ▸ h1
      subst hn
      subst ht
      simp [List.lookup]
    · have hmemname : n ∈ entryNames rest :=
        List.mem_map_of_mem Prod.fst h1
      have hne : (n == k) = false := by
        rw [beq_eq_false_iff_ne]
        intro he
        subst he
        exact hnd.1 hmemname
      rw [List.lookup, hne]
      exact ih hnd.2 h1

theorem entriesNodup_mem {es : List (String × FSTree)} {p : String × FSTree}
    (h : entriesNodup es = true) (hmem : p ∈ es) : treeNodup p.2 = true := by
  induction es with
  | nil => simp at hmem
  | cons e rest ih =>
    rw [entriesNodup, Bool.and_eq_true] at h
    rcases List.mem_cons.mp hmem with h1 | h1
    · subst h1
      exact h.1
    · exact ih h.2 h1

theorem sizeOf_snd_lt_of_mem {es : List (String × FSTree)} {p : String × FSTree}
    (h : p ∈ es) : sizeOf p.2 < sizeOf es := by
  have h1 := List.sizeOf_lt_of_mem h
  obtain ⟨a, b⟩ := p
  simp only [Prod.mk.sizeOf_spec] at h1
  simpa using by omega

/-- The two halves of `treeNodup` at a directory. -/
theorem treeNodup_dir {es : List (String × FSTree)}
    (h : treeNodup (FSTree.dir es) = true) :
    (entryNames es).Nodup ∧ entriesNodup es = true := by
  rw [treeNodup, Bool.and_eq_true] at h
  exact ⟨of_decide_eq_true h.1, h.2⟩

theorem checkOnly_subdirs_aux (aL aR : List String) (B : Nat)
    (hself : ∀ es2, sizeOf es2 < B → treeNodup (FSTree.dir es2) = true →
        ∀ lp rp,
          check_dircmp_only_either_allowed_gen aL aR (dircmpFS lp rp es2 es2) = []) :
    ∀ (l es : List (String × FSTree)),
      (∀ p ∈ l, List.lookup p.1 es = some p.2) →
      (∀ p ∈ l, treeNodup p.2 = true) →
      (∀ p ∈ l, sizeOf p.2 < B) →
      ∀ lp rp,
        check_dircmp_only_either_allowed_genList aL aR (dircmpFSSubdirs lp rp l es)
          = [] := by
  intro l
  induction l with
  | nil =>
    intro es _ _ _ lp rp
    simp [dircmpFSSubdirs, check_dircmp_only_either_allowed_genList]
  | cons p rest ih =>
    intro es hlk hnd hsz lp rp
    obtain ⟨n, t⟩ := p
    cases t with
    | file content =>
      simp only [dircmpFSSubdirs]
      exact ih es (fun q hq => hlk q (List.mem_cons_of_mem _ hq))
        (fun q hq => hnd q (List.mem_cons_of_mem _ hq))
        (fun q hq => hsz q (List.mem_cons_of_mem _ hq)) lp rp
    | dir es1 =>
      have hl : List.lookup n es = some (FSTree.dir es1) :=
        hlk (n, FSTree.dir es1) (List.mem_cons_self _ _)
      have hnd1 : treeNodup (FSTree.dir es1) = true :=
        hnd (n, FSTree.dir es1) (List.mem_cons_self _ _)
      have hsz1 : sizeOf es1 < B := by
        have := hsz (n, FSTree.dir es1) (List.mem_cons_self _ _)
        simp only [FSTree.dir.sizeOf_spec] at this
        omega
      simp only [dircmpFSSubdirs, hl, dircmpFSPair, List.singleton_append]
      simp only [check_dircmp_only_either_allowed_genList]
      rw [hself es1 hsz1 hnd1]
      simp only [List.nil_append]
      exact ih es (fun q hq => hlk q (List.mem_cons_of_mem _ hq))
        (fun q hq => hnd q (List.mem_cons_of_mem _ hq))
        (fun q hq => hsz q (List.mem_cons_of_mem _ hq)) lp rp

theorem checkOnly_dircmpFS_self_bounded (aL aR : List String) :
    ∀ (N : Nat) (es : List (String × FSTree)), sizeOf es < N →
      treeNodup (FSTree.dir es) = true →
      ∀ lp rp,
        check_dircmp_only_either_allowed_gen aL aR (dircmpFS lp rp es es) = [] := by
  intro N
  induction N with
  | zero =>
    intro es h
    exact absurd h (Nat.not_lt_zero _)
  | succ N ih =>
    intro es hsize hnd lp rp
    obtain ⟨hkeys, hsubs⟩ := treeNodup_dir hnd
    unfold dircmpFS
    simp only [check_dircmp_only_either_allowed_gen, filter_not_contains_self,
      List.filter_nil, List.map_nil, List.nil_append]
    refine checkOnly_subdirs_aux aL aR N ?_ es es ?_ ?_ ?_ lp rp
    · intro es2 h2 hn2 lp2 rp2
      exact ih es2 h2 hn2 lp2 rp2
    · intro p hp
      exact lookup_of_mem_of_nodupKeys hkeys (by simpa using hp)
    · intro p hp
      exact entriesNodup_mem hsubs hp
    · intro p hp
      have := sizeOf_snd_lt_of_mem hp
      omega

/-- Comparing a directory listing with itself yields no only-in-either
discrepancies, whatever the allow-lists. -/
theorem checkOnly_dircmpFS_self (aL aR : List String)
    (es : List (String × FSTree)) (hnd : treeNodup (FSTree.dir es) = true)
    (lp rp : String) :
    check_dircmp_only_either_allowed_gen aL aR (dircmpFS lp rp es es) = [] :=
  checkOnly_dircmpFS_self_bounded aL aR (sizeOf es + 1) es (by omega) hnd lp rp

/-- The subdirectory walk over entries that resolve to themselves in the
right listing yields nothing. -/
theorem checkOnly_subdirs_into (aL aR : List String)
    (l es : List (String × FSTree))
    (hlk : ∀ p ∈ l, List.lookup p.1 es = some p.2)
    (hnd : ∀ p ∈ l, treeNodup p.2 = true) (lp rp : String) :
    check_dircmp_only_either_allowed_genList aL aR (dircmpFSSubdirs lp rp l es)
      = [] :=
  checkOnly_subdirs_aux aL aR (sizeOf l + 1)
    (fun es2 _ hn2 lp2 rp2 => checkOnly_dircmpFS_self aL aR es2 hn2 lp2 rp2)
    l es hlk hnd
    (fun p hp => by have := sizeOf_snd_lt_of_mem hp; omega) lp rp

theorem entryNames_cons (e : String × FSTree) (rest : List (String × FSTree)) :
    entryNames (e :: rest) = e.1 :: entryNames rest := rfl

theorem replaceEntry_names (es : List (String × FSTree)) (p : String) (t : FSTree) :
    entryNames (insertFileAt.replaceEntry es p t) = entryNames es := by
  induction es with
  | nil => rfl
  | cons e rest ih =>
    obtain ⟨k, v⟩ := e
    rw [insertFileAt.replaceEntry]
    by_cases hk : k = p
    · rw [if_pos hk, entryNames_cons, entryNames_cons]
    · rw [if_neg hk, entryNames_cons, entryNames_cons, ih]

/-- Walking the subdirectories of `replaceEntry es p (dir sub2)` against the
unchanged `full` listing: the one replaced directory contributes `D` (the
deep comparison's result) and every other entry, resolving to itself,
contributes nothing. -/
theorem checkOnly_subdirs_walk_replace (aL aR : List String)
    (full : List (String × FSTree)) (p : String)
    (sub sub2 : List (String × FSTree)) (lp rp : String) (D : List String)
    (hfull : List.lookup p full = some (FSTree.dir sub))
    (hdeep : check_dircmp_only_either_allowed_gen aL aR
        (dircmpFS (osPathJoin lp p) (osPathJoin rp p) sub2 sub) = D) :
    ∀ (es : List (String × FSTree)),
      p ∈ entryNames es →
      (∀ e ∈ es, List.lookup e.1 full = some e.2) →
      (∀ e ∈ es, treeNodup e.2 = true) →
      check_dircmp_only_either_allowed_genList aL aR
          (dircmpFSSubdirs lp rp
            (insertFileAt.replaceEntry es p (FSTree.dir sub2)) full)
        = D := by
  intro es
  induction es with
  | nil =>
    intro hp
    simp [entryNames] at hp
  | cons e rest ih =>
    intro hp hlk hnd
    obtain ⟨n, t⟩ := e
    rw [insertFileAt.replaceEntry]
    by_cases hn : n = p
    · rw [if_pos hn]
      subst hn
      simp only [dircmpFSSubdirs, hfull, dircmpFSPair, List.singleton_append]
      simp only [check_dircmp_only_either_allowed_genList]
      rw [hdeep]
      rw [checkOnly_subdirs_into aL aR rest full
        (fun q hq => hlk q (List.mem_cons_of_mem _ hq))
        (fun q hq => hnd q (List.mem_cons_of_mem _ hq)) lp rp]
      simp
    · rw [if_neg hn]
      have hp' : p ∈ entryNames rest := by
        rw [entryNames_cons] at hp
        rcases List.mem_cons.mp hp with h | h
        · exact absurd h.symm hn
        · exact h
      cases t with
      | file content =>
        simp only [dircmpFSSubdirs]
        exact ih hp' (fun q hq => hlk q (List.mem_cons_of_mem _ hq))
          (fun q hq => hnd q (List.mem_cons_of_mem _ hq))
      | dir ts =>
        have hlkn : List.lookup n full = some (FSTree.dir ts) :=
          hlk (n, FSTree.dir ts) (List.mem_cons_self _ _)
        have hndn : treeNodup (FSTree.dir ts) = true :=
          hnd (n, FSTree.dir ts) (List.mem_cons_self _ _)
        simp only [dircmpFSSubdirs, hlkn, dircmpFSPair, List.singleton_append]
        simp only [check_dircmp_only_either_allowed_genList]
        rw [checkOnly_dircmpFS_self aL aR ts hndn]
        simp only [List.nil_append]
        exact ih hp' (fun q hq => hlk q (List.mem_cons_of_mem _ hq))
          (fun q hq => hnd q (List.mem_cons_of_mem _ hq))

/-- Inserting one file (name `f`, not in the left allow-list `aL`) anywhere
in a well-formed tree and comparing against the original yields exactly one
"only in the git checkout" discrepancy, at the file's path. -/
theorem checkOnly_insert_gen (aL aR : List String) :
    ∀ (ps : List String) (f c : String) (es es2 : List (String × FSTree))
      (lp rp : String),
      treeNodup (FSTree.dir es) = true →
      aL.contains f = false →
      insertFileAt ps f c es = some es2 →
      check_dircmp_only_either_allowed_gen aL aR (dircmpFS lp rp es2 es)
        = [osPathJoin (ps.foldl osPathJoin lp) f
            ++ " is only in the git checkout"] := by
  intro ps
  induction ps with
  | nil =>
    intro f c es es2 lp rp hnd hf hins
    obtain ⟨hkeys, hsubs⟩ := treeNodup_dir hnd
    rw [insertFileAt] at hins
    by_cases hc : (entryNames es).contains f
    · rw [if_pos hc] at hins
      exact absurd hins (by simp)
    · rw [if_neg hc] at hins
      rw [Option.some.injEq] at hins
      subst hins
      have hcf : ((entryNames es).contains f) = false := by
        rwa [Bool.not_eq_true] at hc
      unfold dircmpFS
      simp only [check_dircmp_only_either_allowed_gen, entryNames_cons]
      rw [List.filter_cons_of_pos (by simpa using hcf), filter_not_contains_self,
        @filter_not_contains_of_subset (entryNames es)
          (Prod.fst (f, FSTree.file c) :: entryNames es)
          (fun a ha => List.mem_cons_of_mem _ ha)]
      simp only [dircmpFSSubdirs]
      rw [checkOnly_subdirs_into aL aR es es
        (fun q hq => lookup_of_mem_of_nodupKeys hkeys (by simpa using hq))
        (fun q hq => entriesNodup_mem hsubs hq) lp rp]
      have hf2 : f ∉ aL := by simpa using hf
      simp [hf2]
  | cons p ps' ih =>
    intro f c es es2 lp rp hnd hf hins
    obtain ⟨hkeys, hsubs⟩ := treeNodup_dir hnd
    rw [insertFileAt] at hins
    cases hlkp : List.lookup p es with
    | none =>
      simp only [hlkp] at hins
      exact Option.noConfusion hins
    | some t =>
      cases t with
      | file content =>
        simp only [hlkp] at hins
        exact Option.noConfusion hins
      | dir sub =>
        simp only [hlkp] at hins
        cases hins2 : insertFileAt ps' f c sub with
        | none =>
          simp only [hins2, Option.map_none'] at hins
          exact Option.noConfusion hins
        | some sub2 =>
          simp only [hins2, Option.map_some', Option.some.injEq] at hins
          subst hins
          have hsubmem : (p, FSTree.dir sub) ∈ es := lookup_mem hlkp
          have hndsub : treeNodup (FSTree.dir sub) = true :=
            entriesNodup_mem hsubs hsubmem
          have hdeep := ih f c sub sub2 (osPathJoin lp p) (osPathJoin rp p)
            hndsub hf hins2
          unfold dircmpFS
          simp only [check_dircmp_only_either_allowed_gen, replaceEntry_names,
            filter_not_contains_self, List.filter_nil, List.map_nil,
            List.nil_append]
          rw [checkOnly_subdirs_walk_replace aL aR es p sub sub2 lp rp _
            hlkp hdeep es (mem_keys_of_lookup hlkp)
            (fun e he => lookup_of_mem_of_nodupKeys hkeys (by simpa using he))
            (fun e he => entriesNodup_mem hsubs he)]
          rw [List.foldl_cons]

/-- C6: comparing two identical directory trees yields no only-in-either
discrepancies, whatever the allow-lists contain; and when the left tree has
exactly one extra file whose name is not in the left-side allow-list, the
comparator yields exactly one discrepancy stating that the file's path is
only in the git checkout. -/
theorem c6_identical_trees_and_one_extra_file :
    (∀ (aL aR : List String) (lp rp : String) (es : List (String × FSTree)),
        treeNodup (FSTree.dir es) = true →
        check_dircmp_only_either_allowed_gen aL aR (dircmpFS lp rp es es) = [])
      ∧ (∀ (ps : List String) (f c : String) (es es2 : List (String × FSTree))
          (lp rp : String),
          treeNodup (FSTree.dir es) = true →
          f ∉ allowed_left_only →
          insertFileAt ps f c es = some es2 →
          _check_dircmp_only_either_allowed (dircmpFS lp rp es2 es)
            = [osPathJoin (ps.foldl osPathJoin lp) f
                ++ " is only in the git checkout"]) :=
  ⟨fun aL aR lp rp es hnd => checkOnly_dircmpFS_self aL aR es hnd lp rp,
   fun ps f c es es2 lp rp hnd hf hins =>
     checkOnly_insert_gen allowed_left_only allowed_right_only ps f c es es2 lp rp
       hnd (by simpa using hf) hins⟩

/-- A small well-formed tree: a file and a subdirectory with a file. -/
def c6Tree : List (String × FSTree) :=
  [("README.md", FSTree.file "hello"),
   ("src", FSTree.dir [("main.py", FSTree.file "import this")])]

/-- Witness for C6 at concrete trees. -/
theorem c6_witness :
    check_dircmp_only_either_allowed_gen [] []
        (dircmpFS "/g" "/a" c6Tree c6Tree) = []
      ∧ _check_dircmp_only_either_allowed
          (dircmpFS "/g" "/a" (("extra.txt", FSTree.file "x") :: c6Tree) c6Tree)
        = ["/g/extra.txt is only in the git checkout"] :=
  ⟨c6_identical_trees_and_one_extra_file.1 [] [] "/g" "/a" c6Tree
     (by simp [c6Tree, treeNodup, entriesNodup, entryNames]),
   c6_identical_trees_and_one_extra_file.2 [] "extra.txt" "x" c6Tree
     (("extra.txt", FSTree.file "x") :: c6Tree) "/g" "/a"
     (by simp [c6Tree, treeNodup, entriesNodup, entryNames])
     (by decide) rfl⟩

/-! ### C5: build-and-test selection -/

/-- The strategies the loop executes are exactly the applicable ones, in
order. -/
theorem buildAndTestLoop_executed (env : Env) (src : String)
    (strategies : List BuildAndTest) :
    (buildAndTestLoop env src strategies).1
      = (strategies.filter (fun strategy => strategy.should_run env src)).map
          (fun strategy => strategy.name) := by
  induction strategies with
  | nil => rfl
  | cons strategy rest ih =>
    by_cases h : strategy.should_run env src
      <;> simp [buildAndTestLoop, h, ih, List.filter]

/-- C5: an explicit build-and-test command replaces the heuristics entirely
(no strategy is executed); otherwise every applicable strategy is executed,
in order — not only the first; and when none applies the check fails with
the four-line diagnostic instructing the operator to pass
`--build-and-test-command`. -/
theorem c5_build_and_test_selection :
    ∀ (env : Env) (state : State) (src : String),
      state.source_dir = Except.ok src →
      ((∀ cmd, state.build_and_test_command = some cmd →
          check_build_and_test env state
            = Except.ok ([], _check_sh env [cmd] (some src)))
        ∧ (state.build_and_test_command = none →
            ∃ outcome,
              check_build_and_test env state
                = Except.ok
                    ((buildStrategies.filter
                        (fun strategy => strategy.should_run env src)).map
                      (fun strategy => strategy.name),
                     outcome))
        ∧ (state.build_and_test_command = none →
            (∀ strategy ∈ buildStrategies, strategy.should_run env src = false) →
            check_build_and_test env state
              = Except.ok
                  ([], some (String.intercalate "\n" heuristicsFailedLines)))) := by
  intro env state src hsrc
  refine ⟨?_, ?_, ?_⟩
  · intro cmd hcmd
    simp only [check_build_and_test, hcmd, hsrc]
  · intro hnone
    simp only [check_build_and_test, hnone, hsrc, buildAndTestLoop_executed]
    exact ⟨_, rfl⟩
  · intro hnone hnot
    have h1 : BuildAndTestMaven.should_run env src = false :=
      hnot BuildAndTestMaven (by simp [buildStrategies])
    have h2 : BuildAndTestNpm.should_run env src = false :=
      hnot BuildAndTestNpm (by simp [buildStrategies])
    have hloop : buildAndTestLoop env src buildStrategies = ([], []) := by
      simp [buildStrategies, buildAndTestLoop, h1, h2]
    simp [check_build_and_test, hnone, hsrc, hloop, heuristicsFailedLines]

/-- An environment with no marker files and all commands succeeding. -/
def c5EnvBare : Env :=
  ⟨fun _ => false, fun _ _ => 0⟩

/-- An environment where both `pom.xml` and `package.json` exist and all
commands succeed. -/
def c5EnvBoth : Env :=
  ⟨fun _ => true, fun _ _ => 0⟩

/-- A state with an explicit build-and-test command. -/
def c5StateCmd : State :=
  ⟨"p", none, "1", "w", false, "z", "s", "r", "k", "h", some "make test"⟩

/-- A state relying on the heuristics. -/
def c5StateAuto : State :=
  ⟨"p", none, "1", "w", false, "z", "s", "r", "k", "h", none⟩

/-- Witness for C5: the explicit command bypasses the heuristics; with both
marker files present both strategies are executed; with none, the check
fails with the diagnostic. -/
theorem c5_witness :
    check_build_and_test c5EnvBare c5StateCmd = Except.ok ([], none)
      ∧ (∃ outcome,
          check_build_and_test c5EnvBoth c5StateAuto
            = Except.ok (["maven", "npm"], outcome))
      ∧ check_build_and_test c5EnvBare c5StateAuto
        = Except.ok ([], some (String.intercalate "\n" heuristicsFailedLines)) := by
  refine ⟨?_, ?_, ?_⟩
  · have h := (c5_build_and_test_selection c5EnvBare c5StateCmd "w/unzipped/s" rfl).1
      "make test" rfl
    rw [h]
    rfl
  · obtain ⟨outcome, h⟩ :=
      (c5_build_and_test_selection c5EnvBoth c5StateAuto "w/unzipped/s" rfl).2.1 rfl
    exact ⟨outcome, by rw [h]; rfl⟩
  · exact (c5_build_and_test_selection c5EnvBare c5StateAuto "w/unzipped/s" rfl).2.2
      rfl (by intro strategy hs; fin_cases hs <;> rfl)

end ARV
